import Mathlib

/-!
IDAKLU / CasADi bridge (`pybamm/solvers/c_solvers/idaklu_casadi.cpp`)

A shallow embedding of the callback layer (`residual_casadi`, `jtimes_casadi`,
`jacobian_casadi`, `events_casadi`, `sensitivities_casadi`) and of the driver
`solve_casadi`.

Modelling conventions.

* `realtype` values live in a commutative ring `R`: floating point is read as
  exact arithmetic.  Index arithmetic is done in `Nat` (sizes are assumed to
  fit the C `int` type).
* Raw memory is a map from buffer identifiers to contents (`Mem`).  An
  `N_Vector` argument is the identifier of its data buffer.
* A `casadi::Function` is an abstract pure function from its dereferenced
  argument slots to the list of its outputs.  A `CasadiFunction` handle keeps
  the pointer slots `m_arg` / `m_res` between calls, exactly like the class in
  the source; a slot that was never assigned is the null pointer.
* The SUNDIALS solver is external.  It is an oracle (`IDA`) answering the
  `c`-th call of `IDASolve` with a status, a return time, the new contents of
  `yy` and the sensitivities that `IDAGetSens` would deliver.
* Accesses through `unchecked<1>()` and `std::vector::operator[]` are not
  bounds-checked in C++; the driver model reports the first access that would
  leave its array as a `Fault`.
* The declared sparsity arrays hold integral values and are kept as integer
  lists.  Printing to `std::cout` is not modelled.
* The `while (true)` loop of the driver is run with an iteration budget
  (`fuel`); results about returning are stated for every sufficient budget.
-/

namespace casadi

/-- The external `casadi::Function`: `n_in` inputs are read from the first
`n_in` argument slots (`none` stands for a null pointer), and the outputs are
returned in order. -/
structure Function (R : Type) where
  n_in : Nat
  eval : List (Option (List R)) → List (List R)

/-- The library routine `casadi_axpy(n, alpha, x, y)`: `y[i] += alpha * x[i]`
for `i < n` (the source comments it as `AXPY: y <- a*x + y`). -/
def casadi_axpy {R : Type} [CommRing R] : Nat → R → List R → List R → List R
  | 0, _, _, y => y
  | _ + 1, _, [], y => y
  | _ + 1, _, _ :: _, [] => []
  | n + 1, alpha, x :: xs, y :: ys => (y + alpha * x) :: casadi_axpy n alpha xs ys

end casadi

namespace IdakluCasadi

open casadi

/-! Memory and evaluator handles -/

/-- Raw memory: buffer identifier to contents. -/
abbrev Mem (R : Type) := Nat → List R

/-- Replace the contents of buffer `b`. -/
def Mem.store {R : Type} (mem : Mem R) (b : Nat) (v : List R) : Mem R :=
  fun b' => if b' = b then v else mem b'

/-- A `const double *` held in an argument slot: null, the address of a scalar
local (`&tres`), or the data pointer of a buffer. -/
inductive Ptr (R : Type) where
  | null : Ptr R
  | scalar (x : R) : Ptr R
  | data (b : Nat) : Ptr R

/-- What the evaluator sees behind an argument pointer. -/
def Ptr.deref {R : Type} (mem : Mem R) : Ptr R → Option (List R)
  | Ptr.null => none
  | Ptr.scalar x => some [x]
  | Ptr.data b => some (mem b)

/-- Writing an output of the evaluator at the start of a buffer. -/
def overwrite {R : Type} (out buf : List R) : List R :=
  out ++ buf.drop out.length

/-- Output `k` of the evaluator goes to the buffer bound in result slot `k`;
an output whose slot is null is dropped. -/
def store_results {R : Type} (mem : Mem R) : List (Option Nat) → List (List R) → Mem R
  | some b :: ps, o :: os => store_results (mem.store b (overwrite o (mem b))) ps os
  | none :: ps, _ :: os => store_results mem ps os
  | _, _ => mem

/-- The class `CasadiFunction`: the wrapped function and its pointer slots. -/
structure CasadiFunction (R : Type) where
  m_func : Function R
  m_arg : List (Ptr R)
  m_res : List (Option Nat)

/-- Constructor `CasadiFunction(const Function &f)`: the slot vectors are
resized to the sizes reported by `sz_work`, all entries null. -/
def CasadiFunction.new {R : Type} (f : Function R) (sz_arg sz_res : Nat) : CasadiFunction R :=
  { m_func := f, m_arg := List.replicate sz_arg Ptr.null, m_res := List.replicate sz_res none }

/-- Assignment `m_arg[i] = p`. -/
def CasadiFunction.set_arg {R : Type} (F : CasadiFunction R) (i : Nat) (p : Ptr R) :
    CasadiFunction R :=
  { F with m_arg := F.m_arg.set i p }

/-- Assignment `m_res[i] = data pointer of buffer b`. -/
def CasadiFunction.set_res {R : Type} (F : CasadiFunction R) (i : Nat) (b : Nat) :
    CasadiFunction R :=
  { F with m_res := F.m_res.set i (some b) }

/-- The call operator `operator()()`: checkout, evaluate on the bound slots,
release. -/
def CasadiFunction.call {R : Type} (F : CasadiFunction R) (mem : Mem R) : Mem R :=
  let args := (List.range F.m_func.n_in).map fun i => (F.m_arg.getD i Ptr.null).deref mem
  store_results mem F.m_res (F.m_func.eval args)

/-- The C `for (int i = 0; i < n; i++) body` loop over a state. -/
def forLoop {σ : Type} (n : Nat) (body : Nat → σ → σ) (s : σ) : σ :=
  (List.range n).foldl (fun s i => body i s) s

/-- The class `PybammFunctions`; `tmp` is the identifier of the private
scratch vector of length `number_of_states`. -/
structure PybammFunctions (R : Type) where
  number_of_states : Nat
  number_of_parameters : Nat
  number_of_events : Nat
  rhs_alg : CasadiFunction R
  sens : CasadiFunction R
  jac_times_cjmass : CasadiFunction R
  jac_times_cjmass_rowvals : List Int
  jac_times_cjmass_colptrs : List Int
  jac_action : CasadiFunction R
  mass_action : CasadiFunction R
  events : CasadiFunction R
  tmp : Nat

/-- The solver-owned sparse matrix: identifier of its data buffer and its two
index arrays (`SUNSparseMatrix_IndexValues`, `SUNSparseMatrix_IndexPointers`). -/
structure SUNSparseMatrix where
  data : Nat
  indexvals : List Int
  indexptrs : List Int
deriving DecidableEq

/-! Callbacks -/

/-- Source `residual_casadi` (lines 86-110). -/
def residual_casadi {R : Type} [CommRing R] (tres : R) (yy yp rr : Nat)
    (ud : PybammFunctions R) (mem : Mem R) : Int × PybammFunctions R × Mem R :=
  -- args are t, y, put result in rr
  let rhs_alg := ((ud.rhs_alg.set_arg 0 (Ptr.scalar tres)).set_arg 1 (Ptr.data yy)).set_res 0 rr
  let mem := rhs_alg.call mem
  let tmp := ud.tmp
  -- args is yp, put result in tmp
  let mass_action := (ud.mass_action.set_arg 0 (Ptr.data yp)).set_res 0 tmp
  let mem := mass_action.call mem
  let ns := ud.number_of_states
  let mem := mem.store rr (casadi_axpy ns (-1) (mem tmp) (mem rr))
  (0, { ud with rhs_alg := rhs_alg, mass_action := mass_action }, mem)

/-- Source `jtimes_casadi` (lines 128-153). -/
def jtimes_casadi {R : Type} [CommRing R] (tt : R) (yy _yp rr v _Jv : Nat) (cj : R)
    (ud : PybammFunctions R) (tmp1 _tmp2 : Nat) (mem : Mem R) :
    Int × PybammFunctions R × Mem R :=
  let jac_action := ((((ud.jac_action.set_arg 0 (Ptr.scalar tt)).set_arg 1 (Ptr.data yy)).set_arg 2
    (Ptr.scalar cj)).set_arg 3 (Ptr.data v)).set_res 0 rr
  let mem := jac_action.call mem
  let mass_action := (ud.mass_action.set_arg 0 (Ptr.data v)).set_res 0 tmp1
  let mem := mass_action.call mem
  let ns := ud.number_of_states
  let mem := mem.store rr (casadi_axpy ns (-cj) (mem tmp1) (mem rr))
  (0, { ud with jac_action := jac_action, mass_action := mass_action }, mem)

/-- The two copy loops `for (i = 0; i < n; i++) dst[i] = src[i]` over the
declared index arrays (`n` is the size of `src`). -/
def copy_index (src dst : List Int) : List Int :=
  forLoop src.length (fun i d => d.set i (src.getD i 0)) dst

/-- Source `jacobian_casadi` (lines 170-212); the two `std::cout` lines are
not modelled. -/
def jacobian_casadi {R : Type} (tt cj : R) (yy _yp _resvec : Nat) (JJ : SUNSparseMatrix)
    (ud : PybammFunctions R) (mem : Mem R) :
    Int × SUNSparseMatrix × PybammFunctions R × Mem R :=
  let jac_colptrs := JJ.indexptrs
  let jac_rowvals := JJ.indexvals
  let jac_data := JJ.data
  -- args are t, y, cj, put result in jacobian data matrix
  let jac_times_cjmass := (((ud.jac_times_cjmass.set_arg 0 (Ptr.scalar tt)).set_arg 1
    (Ptr.data yy)).set_arg 2 (Ptr.scalar cj)).set_res 0 jac_data
  let mem := jac_times_cjmass.call mem
  let jac_rowvals := copy_index ud.jac_times_cjmass_rowvals jac_rowvals
  let jac_colptrs := copy_index ud.jac_times_cjmass_colptrs jac_colptrs
  (0, { JJ with indexvals := jac_rowvals, indexptrs := jac_colptrs },
    { ud with jac_times_cjmass := jac_times_cjmass }, mem)

/-- Source `events_casadi` (lines 214-227). -/
def events_casadi {R : Type} (t : R) (yy _yp events_ptr : Nat)
    (ud : PybammFunctions R) (mem : Mem R) : Int × PybammFunctions R × Mem R :=
  let events := ((ud.events.set_arg 0 (Ptr.scalar t)).set_arg 1 (Ptr.data yy)).set_res 0 events_ptr
  (0, { ud with events := events }, events.call mem)

/-- Body of the second loop of `sensitivities_casadi` (lines 267-285). -/
def sensitivities_body {R : Type} [CommRing R] (t : R) (yy : Nat) (yS ypS resvalS : Nat → Nat)
    (tmp1 tmp2 : Nat) (i : Nat) (s : PybammFunctions R × Mem R) : PybammFunctions R × Mem R :=
  let ud := s.1
  let mem := s.2
  -- put (dF/dy) s_i in tmp1
  let jac_action := (((ud.jac_action.set_arg 0 (Ptr.scalar t)).set_arg 1 (Ptr.data yy)).set_arg 2
    (Ptr.data (yS i))).set_res 1 tmp1
  let mem := jac_action.call mem
  -- put (dF/dyp) sp_i in tmp2
  let mass_action := (ud.mass_action.set_arg 0 (Ptr.data (ypS i))).set_res 1 tmp2
  let mem := mass_action.call mem
  let ns := ud.number_of_states
  let mem := mem.store (resvalS i) (casadi_axpy ns 1 (mem tmp1) (mem (resvalS i)))
  let mem := mem.store (resvalS i) (casadi_axpy ns (-1) (mem tmp2) (mem (resvalS i)))
  ({ ud with jac_action := jac_action, mass_action := mass_action }, mem)

/-- Source `sensitivities_casadi` (lines 250-288).  The vector arrays `yS`,
`ypS`, `resvalS` map an index to the buffer of that vector. -/
def sensitivities_casadi {R : Type} [CommRing R] (_Ns : Nat) (t : R) (yy _yp _resval : Nat)
    (yS ypS resvalS : Nat → Nat) (ud : PybammFunctions R) (tmp1 tmp2 _tmp3 : Nat)
    (mem : Mem R) : Int × PybammFunctions R × Mem R :=
  -- args are t, y put result in rr
  let sens := (ud.sens.set_arg 0 (Ptr.scalar t)).set_arg 1 (Ptr.data yy)
  let np := ud.number_of_parameters
  let sens := forLoop np (fun i (F : CasadiFunction R) => F.set_res i (resvalS i)) sens
  let mem := sens.call mem
  let s := forLoop np (sensitivities_body t yy yS ypS resvalS tmp1 tmp2) ({ ud with sens := sens }, mem)
  (0, s.1, s.2)

/-- The setup-time copy of the declared index arrays into the freshly
created matrix `J` (`solve_casadi`, lines 389-404). -/
def solve_casadi_sparsity (jac_times_cjmass_rowvals jac_times_cjmass_colptrs : List Int)
    (J : SUNSparseMatrix) : SUNSparseMatrix :=
  let jac_rowvals := copy_index jac_times_cjmass_rowvals J.indexvals
  let jac_colptrs := copy_index jac_times_cjmass_colptrs J.indexptrs
  { J with indexvals := jac_rowvals, indexptrs := jac_colptrs }

/-! The external solver and the driver -/

/-- Modelled from the spec: the solver's return-code space (success,
stop-time-reached, root-found, or a failure code).  The macro comes from the
SUNDIALS header, which is not among the sources; only the fact that the three
codes differ is used. -/
def IDA_SUCCESS : Int := 0

/-- Modelled from the spec: the stop-time-reached return code (SUNDIALS header). -/
def IDA_TSTOP_RETURN : Int := 1

/-- Modelled from the spec: the root-found return code (SUNDIALS header). -/
def IDA_ROOT_RETURN : Int := 2

/-- What one call of `IDASolve` (followed by `IDAGetSens`) hands back:
the status, the value stored in `tret`, component `j` of `yy`, and component
`k` of the sensitivity vector of parameter `j`. -/
structure StepOut (R : Type) where
  retval : Int
  tret : R
  yy : Nat → R
  yS : Nat → Nat → R

/-- The external solver: the status of `IDACalcIC` for a given first output
time, and the answer to the `c`-th call (counted from 1) of `IDASolve` for the
stop time and final time passed with it. -/
structure IDA (R : Type) where
  IDACalcIC : R → Int
  IDASolve : Nat → R → R → StepOut R

/-- The first unchecked access that leaves its array. -/
inductive Fault where
  | t_read (i : Nat) : Fault
  | t_return_write (i : Nat) : Fault
  | y_return_write (i : Nat) : Fault
  | yS_return_write (i : Nat) : Fault
  | yval_read (i : Nat) : Fault
  | ySval_read (i : Nat) : Fault
deriving DecidableEq

/-- Read `xs[i]`. -/
def rd {R : Type} (flt : Nat → Fault) (xs : List R) (i : Nat) : Except Fault R :=
  match xs[i]? with
  | some v => Except.ok v
  | none => Except.error (flt i)

/-- Write `xs[i] = v`. -/
def wr {R : Type} (flt : Nat → Fault) (xs : List R) (i : Nat) (v : R) : Except Fault (List R) :=
  if i < xs.length then Except.ok (xs.set i v) else Except.error (flt i)

/-- Read `t(i)` from the output-time array; the index is appended to the log
of reads. -/
def read_t {R : Type} (t : List R) (log : List Nat) (i : Nat) : Except Fault (R × List Nat) :=
  match t[i]? with
  | some v => Except.ok (v, log ++ [i])
  | none => Except.error (Fault.t_read i)

/-- The C `for` loop over a state, with accesses that may fault. -/
def forLoopE {σ : Type} (n : Nat) (body : Nat → σ → Except Fault σ) (s : σ) : Except Fault σ :=
  (List.range n).foldlM (fun s i => body i s) s

/-- The loop `for (k = 0; k < cnt; k++) dst[base + k] = src[sbase + k]`. -/
def copy_block {R : Type} (wflt rflt : Nat → Fault) (dst : List R) (base : Nat) (src : List R)
    (sbase cnt : Nat) : Except Fault (List R) :=
  forLoopE cnt (fun k d => do
    let v ← rd rflt src (sbase + k)
    wr wflt d (base + k) v) dst

/-- Locals of `solve_casadi` that the stepping loop reads or writes.  `calls`
(number of `IDASolve` calls made) and `t_reads` (indices at which the
output-time array was read, in order) are bookkeeping of the model. -/
structure DriverState (R : Type) where
  t_i : Nat
  retval : Int
  tret : R
  t_final : R
  yval : List R
  ySval : List R
  t_return : List R
  y_return : List R
  yS_return : List R
  calls : Nat
  t_reads : List Nat

/-- The contents seen through `ySval = N_VGetArrayPointer(yyS[0])` at offset
`j * ns + k`: the sensitivity vectors are taken to lie back to back, which is
what the indexing of the source presupposes. -/
def flat_sens {R : Type} (ns np : Nat) (yS : Nat → Nat → R) : List R :=
  (List.range (np * ns)).map fun idx => yS (idx / ns) (idx % ns)

/-- Source `solve_casadi`, lines 310-457, as far as the driver's own data is
concerned: the vectors handed to the solver only (`yp`, `avtol`, `id`, the
matrix and the callbacks) are part of the oracle.  `retval` and `tret` are
uninitialised in the source until the first step; they are never read before.
With no output time at all the read `t(0)` already faults, so the index
`number_of_timesteps - 1` is only formed for a positive count. -/
def solve_casadi_setup {R : Type} [Zero R] (t y0 : List R) (number_of_parameters : Nat)
    (S : IDA R) : Except Fault (DriverState R) := do
  let number_of_states := y0.length
  let number_of_timesteps := t.length
  let yval := y0
  let ySval : List R := List.replicate (number_of_parameters * number_of_states) 0
  let (t0, t_reads) ← read_t t [] 0
  let t_i := 1
  let (t_final, t_reads) ← read_t t t_reads (number_of_timesteps - 1)
  let t_return : List R := List.replicate number_of_timesteps 0
  let y_return : List R := List.replicate (number_of_timesteps * number_of_states) 0
  let yS_return : List R :=
    List.replicate (number_of_parameters * number_of_timesteps * number_of_states) 0
  let (t_first, t_reads) ← read_t t t_reads 0
  let t_return ← wr Fault.t_return_write t_return 0 t_first
  let y_return ← copy_block Fault.y_return_write Fault.yval_read y_return 0 yval 0 number_of_states
  let yS_return ← forLoopE number_of_parameters (fun j yS_return =>
    let base_index := j * number_of_timesteps * number_of_states
    copy_block Fault.yS_return_write Fault.ySval_read yS_return base_index ySval
      (j * number_of_states) number_of_states) yS_return
  let (t1, t_reads) ← read_t t t_reads 1
  let _ic := S.IDACalcIC t1
  pure { t_i := t_i, retval := 0, tret := t0, t_final := t_final, yval := yval, ySval := ySval,
         t_return := t_return, y_return := y_return, yS_return := yS_return, calls := 0,
         t_reads := t_reads }

/-- One iteration of the `while (true)` loop (lines 459-489).  The Boolean
says whether the iteration ended in `break`. -/
def loop_body {R : Type} (t : List R) (number_of_states number_of_parameters : Nat) (S : IDA R)
    (st : DriverState R) : Except Fault (Bool × DriverState R) := do
  let number_of_timesteps := t.length
  let (t_next, t_reads) ← read_t t st.t_reads st.t_i
  let out := S.IDASolve (st.calls + 1) t_next st.t_final
  let retval := out.retval
  let st := { st with retval := retval, tret := out.tret,
                      yval := (List.range number_of_states).map out.yy,
                      calls := st.calls + 1, t_reads := t_reads }
  if retval = IDA_TSTOP_RETURN ∨ retval = IDA_SUCCESS ∨ retval = IDA_ROOT_RETURN then
    let ySval := if 0 < number_of_parameters
      then flat_sens number_of_states number_of_parameters out.yS else st.ySval
    let t_return ← wr Fault.t_return_write st.t_return st.t_i st.tret
    let y_return ← copy_block Fault.y_return_write Fault.yval_read st.y_return
      (st.t_i * number_of_states) st.yval 0 number_of_states
    let yS_return ← forLoopE number_of_parameters (fun j yS_return =>
      let base_index := j * number_of_timesteps * number_of_states + st.t_i * number_of_states
      copy_block Fault.yS_return_write Fault.ySval_read yS_return base_index ySval
        (j * number_of_states) number_of_states) st.yS_return
    let st := { st with ySval := ySval, t_return := t_return, y_return := y_return,
                        yS_return := yS_return, t_i := st.t_i + 1 }
    if retval = IDA_SUCCESS ∨ retval = IDA_ROOT_RETURN then pure (true, st) else pure (false, st)
  else
    pure (false, st)

/-- How a bounded run of the driver ends: the loop was left by `break`, an
access left its array, or the iteration budget ran out with the loop still
going. -/
inductive Outcome (R : Type) where
  | finished (st : DriverState R) : Outcome R
  | fault (f : Fault) : Outcome R
  | running (st : DriverState R) : Outcome R

/-- The `while (true)` loop, run for at most `fuel` iterations. -/
def step_loop {R : Type} (t : List R) (number_of_states number_of_parameters : Nat) (S : IDA R) :
    Nat → DriverState R → Outcome R
  | 0, st => Outcome.running st
  | fuel + 1, st =>
    match loop_body t number_of_states number_of_parameters S st with
    | Except.error f => Outcome.fault f
    | Except.ok (true, st') => Outcome.finished st'
    | Except.ok (false, st') => step_loop t number_of_states number_of_parameters S fuel st'

/-- Setup followed by the stepping loop. -/
def solve_casadi_run {R : Type} [Zero R] (fuel : Nat) (t y0 : List R) (number_of_parameters : Nat)
    (S : IDA R) : Outcome R :=
  match solve_casadi_setup t y0 number_of_parameters S with
  | Except.error f => Outcome.fault f
  | Except.ok st => step_loop t y0.length number_of_parameters S fuel st

/-- Modelled from the spec: the class `Solution` (its header is not among the
sources), a result object carrying the status code, the recorded time
sequence, the recorded state trajectory and the recorded sensitivity
trajectory, the latter as a contiguous row-major array with its shape. -/
structure Solution (R : Type) where
  flag : Int
  t : List R
  y : List R
  yS : List R
  yS_shape : Nat × Nat × Nat

/-- Entry `[j][i][k]` of the returned sensitivity array. -/
def Solution.yS_entry {R : Type} (sol : Solution R) (j i k : Nat) : Option R :=
  sol.yS[(j * sol.yS_shape.2.1 + i) * sol.yS_shape.2.2 + k]?

/-- Lines 505-514: the arrays copied out of the return vectors. -/
def make_solution {R : Type} (number_of_states number_of_parameters : Nat) (st : DriverState R) :
    Solution R :=
  { flag := st.retval
    t := st.t_return.take st.t_i
    y := st.y_return.take (st.t_i * number_of_states)
    yS := st.yS_return.take (number_of_parameters * st.t_i * number_of_states)
    yS_shape := (number_of_parameters, st.t_i, number_of_states) }

/-- Source `solve_casadi`: the returned `Solution`, when the run returns
within `fuel` iterations. -/
def solve_casadi {R : Type} [Zero R] (fuel : Nat) (t y0 : List R) (number_of_parameters : Nat)
    (S : IDA R) : Option (Solution R) :=
  match solve_casadi_run fuel t y0 number_of_parameters S with
  | Outcome.finished st => some (make_solution y0.length number_of_parameters st)
  | _ => none

/-- Sizes of the driver's arrays for `n` output times, `ns` states and `np`
parameters. -/
def DriverState.wf {R : Type} (n ns np : Nat) (st : DriverState R) : Prop :=
  st.t_return.length = n ∧ st.y_return.length = n * ns ∧ st.yS_return.length = np * n * ns ∧
    st.yval.length = ns ∧ st.ySval.length = np * ns

instance {R : Type} (n ns np : Nat) (st : DriverState R) : Decidable (st.wf n ns np) := by
  unfold DriverState.wf
  infer_instance

/-! Concrete inputs.

The one-state decay model `f(t, y; a) = -a * y` with unit mass and `a = 1`,
over the integers, and a few scripted solvers. -/

/-- Residual evaluator `(t, y) ↦ -y`. -/
def decay_rhs : Function Int :=
  { n_in := 2, eval := fun args => [((args.getD 1 none).getD []).map fun x => -x] }

/-- Mass-action evaluator `v ↦ v`. -/
def decay_mass : Function Int :=
  { n_in := 1, eval := fun args => [(args.getD 0 none).getD []] }

/-- Jacobian-action evaluator `(t, y, cj, v) ↦ -v`. -/
def decay_jac_action : Function Int :=
  { n_in := 4, eval := fun args => [((args.getD 3 none).getD []).map fun x => -x] }

/-- Sensitivity evaluator `(t, y) ↦ dF/da = -y`. -/
def decay_sens : Function Int :=
  { n_in := 2, eval := fun args => [((args.getD 1 none).getD []).map fun x => -x] }

/-- Combined Jacobian `(t, y, cj) ↦ [-1 - cj]`. -/
def decay_jac : Function Int :=
  { n_in := 3, eval := fun args => [((args.getD 2 none).getD []).map fun c => -1 - c] }

/-- Event evaluator `(t, y) ↦ y`. -/
def decay_events : Function Int :=
  { n_in := 2, eval := fun args => [(args.getD 1 none).getD []] }

/-- The callback set of the decay model right after construction; the private
scratch vector is buffer 0. -/
def decay_functions : PybammFunctions Int :=
  { number_of_states := 1, number_of_parameters := 1, number_of_events := 1
    rhs_alg := CasadiFunction.new decay_rhs 2 1
    sens := CasadiFunction.new decay_sens 2 1
    jac_times_cjmass := CasadiFunction.new decay_jac 3 1
    jac_times_cjmass_rowvals := [0]
    jac_times_cjmass_colptrs := [0, 1]
    jac_action := CasadiFunction.new decay_jac_action 4 2
    mass_action := CasadiFunction.new decay_mass 1 2
    events := CasadiFunction.new decay_events 2 1
    tmp := 0 }

/-- Buffers: 0 `tmp`, 1 `yy = [2]`, 2 `yp = [3]`, 3 `rr`, 4 `v = [1]`, 5 `Jv`,
6 `tmp1`, 7 `tmp2`, 8 `yS[0] = [4]`, 9 `ypS[0] = [6]`, 10 `resvalS[0]`,
11 the data array of the matrix. -/
def decay_mem : Mem Int := fun b =>
  match b with
  | 1 => [2]
  | 2 => [3]
  | 4 => [1]
  | 8 => [4]
  | 9 => [6]
  | _ => [0]

/-- The matrix as created for one state and one nonzero. -/
def decay_matrix : SUNSparseMatrix :=
  { data := 11, indexvals := [0], indexptrs := [0, 0] }

/-- A solver whose `c`-th step returns the status `status c`, the stop time as
return time, the state `[c]` and the sensitivities `s_0 = [5]`, `s_j = [7]`
for the other parameters; `IDACalcIC` returns `ic`. -/
def scripted_solver (ic : Int) (status : Nat → Int) : IDA Int :=
  { IDACalcIC := fun _ => ic
    IDASolve := fun c tn _ =>
      { retval := status c, tret := tn, yy := fun _ => c, yS := fun j _ => if j = 0 then 5 else 7 } }

/-- A solver that reaches every stop time and reports success at the final
time. -/
def stopping_solver : IDA Int :=
  { IDACalcIC := fun _ => 0
    IDASolve := fun c tn tf =>
      { retval := if tn = tf then IDA_SUCCESS else IDA_TSTOP_RETURN, tret := tn,
        yy := fun _ => c, yS := fun _ _ => 0 } }

/-! Loops, buffers and copies -/

theorem forLoop_succ {σ : Type} (n : Nat) (body : Nat → σ → σ) (s : σ) :
    forLoop (n + 1) body s = body n (forLoop n body s) := by
  simp [forLoop, List.range_succ, List.foldl_append]

theorem forLoop_zero {σ : Type} (body : Nat → σ → σ) (s : σ) : forLoop 0 body s = s := rfl

theorem copy_index_loop (src : List Int) :
    ∀ (n : Nat) (dst : List Int), n ≤ src.length → n ≤ dst.length →
      forLoop n (fun i d => d.set i (src.getD i 0)) dst = src.take n ++ dst.drop n := by
  intro n
  induction n with
  | zero => intro dst _ _; simp [forLoop_zero]
  | succ n ih =>
    intro dst h1 h2
    rw [forLoop_succ, ih dst (by omega) (by omega)]
    apply List.ext_getElem?
    intro i
    simp only [List.getElem?_set, List.getElem?_append, List.getElem?_take, List.getElem?_drop,
      List.length_append, List.length_take, List.length_drop]
    have e1 : n ⊓ src.length = n := Nat.min_eq_left (by omega)
    have e2 : (n + 1) ⊓ src.length = n + 1 := Nat.min_eq_left h1
    rw [e1, e2]
    by_cases hi : n = i
    · subst hi
      have : n < n + (dst.length - n) := by omega
      simp [this, List.getD_eq_getElem?_getD, List.getElem?_eq_getElem (show n < src.length by omega)]
    · by_cases hlt : i < n
      · have : i < n + 1 := by omega
        simp [hi, hlt, this]
      · have h3 : ¬ i < n + 1 := by omega
        have h4 : n + (i - n) = n + 1 + (i - (n + 1)) := by omega
        simp [hi, hlt, h3, h4]


theorem copy_index_eq (src dst : List Int) (h : src.length ≤ dst.length) :
    copy_index src dst = src ++ dst.drop src.length := by
  unfold copy_index
  rw [copy_index_loop src src.length dst (le_refl _) h, List.take_length]

theorem copy_index_idem (src dst : List Int) (h : src.length ≤ dst.length) :
    copy_index src (copy_index src dst) = copy_index src dst := by
  rw [copy_index_eq src dst h, copy_index_eq src _ (by simp)]
  simp

theorem copy_index_getElem? (src dst : List Int) (h : src.length ≤ dst.length) (i : Nat)
    (hi : i < src.length) : (copy_index src dst)[i]? = src[i]? := by
  rw [copy_index_eq src dst h, List.getElem?_append_left hi]

theorem overwrite_idem {R : Type} (out buf : List R) :
    overwrite out (overwrite out buf) = overwrite out buf := by
  simp [overwrite]

theorem overwrite_getElem? {R : Type} (out buf : List R) (i : Nat) (hi : i < out.length) :
    (overwrite out buf)[i]? = out[i]? := by
  simp [overwrite, List.getElem?_append_left hi]

theorem casadi_axpy_getElem? {R : Type} [CommRing R] (alpha : R) :
    ∀ (n : Nat) (x y : List R) (i : Nat), i < n → i < x.length → i < y.length →
      (casadi_axpy n alpha x y)[i]? = some (y.getD i 0 + alpha * x.getD i 0) := by
  intro n
  induction n with
  | zero => intro x y i h; omega
  | succ n ih =>
    intro x y i h hx hy
    cases x with
    | nil => simp at hx
    | cons a xs =>
      cases y with
      | nil => simp at hy
      | cons b ys =>
        cases i with
        | zero => simp [casadi_axpy]
        | succ i =>
          simp only [casadi_axpy, List.getElem?_cons_succ, List.getD_cons_succ]
          exact ih xs ys i (by omega) (by simpa using hx) (by simpa using hy)


theorem mem_store_same {R : Type} (mem : Mem R) (b : Nat) (v : List R) : (mem.store b v) b = v := by
  simp [Mem.store]

theorem mem_store_other {R : Type} (mem : Mem R) (b b' : Nat) (v : List R) (h : b' ≠ b) :
    (mem.store b v) b' = mem b' := by
  simp [Mem.store, h]

/-- Claim C1 (residual callback).  For every time, every memory and every
residual evaluator `f` and mass-action evaluator `M` of the right output
length, `residual_casadi` returns 0 and leaves `rr[i] = f(t, y)[i] - M(yp)[i]`
for every `i < ns`.  The output vector must be neither the buffer of `yp` nor
the scratch vector of the callback set, and the slot vectors must have room
for the slots that the callback assigns. -/
theorem residual_casadi_spec {R : Type} [CommRing R] (f : R → List R → List R)
    (M : List R → List R) (tres : R) (yy yp rr : Nat) (ud : PybammFunctions R) (mem : Mem R)
    (hf_in : ud.rhs_alg.m_func.n_in = 2)
    (hf : ∀ a b, ud.rhs_alg.m_func.eval [some [a], some b] = [f a b])
    (hM_in : ud.mass_action.m_func.n_in = 1)
    (hM : ∀ v, ud.mass_action.m_func.eval [some v] = [M v])
    (hfa : 2 ≤ ud.rhs_alg.m_arg.length) (hfr : 1 ≤ ud.rhs_alg.m_res.length)
    (hMa : 1 ≤ ud.mass_action.m_arg.length) (hMr : 1 ≤ ud.mass_action.m_res.length)
    (hfl : (f tres (mem yy)).length = ud.number_of_states)
    (hMl : (M (mem yp)).length = ud.number_of_states)
    (h1 : rr ≠ yp) (h2 : rr ≠ ud.tmp) :
    (residual_casadi tres yy yp rr ud mem).1 = 0 ∧
    ∀ i, i < ud.number_of_states →
      ((residual_casadi tres yy yp rr ud mem).2.2 rr)[i]? =
        some ((f tres (mem yy)).getD i 0 - (M (mem yp)).getD i 0) := by
  refine ⟨rfl, ?_⟩
  intro i hi
  obtain ⟨ns, np, ne, ⟨ffun, fargs, fres⟩, sens, jtc, rv, cp, ja, ⟨mfun, margs, mres⟩, ev, tmp⟩ :=
    ud
  simp only at hf_in hf hM_in hM hfa hfr hMa hMr hfl hMl h2 hi
  rcases fargs with _ | ⟨a0, _ | ⟨a1, arest⟩⟩
  · simp at hfa
  · simp at hfa
  rcases fres with _ | ⟨r0, rrest⟩
  · simp at hfr
  rcases margs with _ | ⟨b0, brest⟩
  · simp at hMa
  rcases mres with _ | ⟨s0, srest⟩
  · simp at hMr
  have h3 : tmp ≠ rr := fun h => h2 h.symm
  have h4 : yp ≠ rr := fun h => h1 h.symm
  simp only [residual_casadi, CasadiFunction.call, CasadiFunction.set_arg, CasadiFunction.set_res,
    hf_in, hM_in, List.set_cons_zero, List.set_cons_succ, List.range_succ, List.range_zero,
    List.nil_append, List.cons_append, List.map_cons, List.map_nil, List.getD_cons_zero,
    List.getD_cons_succ, Ptr.deref, hf, hM, store_results, mem_store_same,
    mem_store_other _ _ _ _ h3, mem_store_other _ _ _ _ h4]
  rw [mem_store_other _ _ _ _ h2, mem_store_same]
  have l1 : i < (overwrite (M (mem yp)) (mem tmp)).length := by simp [overwrite]; omega
  have l2 : i < (overwrite (f tres (mem yy)) (mem rr)).length := by simp [overwrite]; omega
  rw [casadi_axpy_getElem? (-1) ns _ _ i hi l1 l2]
  simp only [List.getD_eq_getElem?_getD, overwrite_getElem? _ _ i (show i < (M (mem yp)).length by omega),
    overwrite_getElem? _ _ i (show i < (f tres (mem yy)).length by omega)]
  congr 1
  ring


theorem store_results_le_one {R : Type} (mem : Mem R) (ps : List (Option Nat))
    (outs : List (List R)) (h : outs.length ≤ 1) (b' : Nat)
    (hb : ∀ b, ps.head? = some (some b) → b' ≠ b) :
    store_results mem ps outs b' = mem b' := by
  rcases outs with _ | ⟨o, _ | ⟨o2, orest⟩⟩
  · rcases ps with _ | ⟨_ | b, ps⟩ <;> simp [store_results]
  · rcases ps with _ | ⟨_ | b, ps⟩
    · simp [store_results]
    · cases ps <;> simp [store_results]
    · have := hb b (by simp)
      cases ps <;> simp [store_results, mem_store_other _ _ _ _ this]
  · simp at h

theorem store_results_set_zero {R : Type} (mem : Mem R) (ps : List (Option Nat))
    (outs : List (List R)) (h : outs.length ≤ 1) (b : Nat) :
    store_results mem (ps.set 0 (some b)) outs b =
      if ps.length = 0 ∨ outs.length = 0 then mem b else overwrite (outs.headD []) (mem b) := by
  rcases outs with _ | ⟨o, _ | ⟨o2, orest⟩⟩
  · rcases ps with _ | ⟨p, ps⟩ <;> simp [store_results]
  · rcases ps with _ | ⟨p, ps⟩
    · simp [store_results]
    · cases ps <;> simp [store_results, mem_store_same]
  · simp at h

theorem jac_args_eq {R : Type} (tt cj : R) (yy : Nat) (l : List (Ptr R)) (mem mem1 : Mem R)
    (h : mem1 yy = mem yy) (i : Nat) (hi : i < 3) :
    ((((l.set 0 (Ptr.scalar tt)).set 1 (Ptr.data yy)).set 2 (Ptr.scalar cj)).getD i Ptr.null).deref mem1 =
    ((((l.set 0 (Ptr.scalar tt)).set 1 (Ptr.data yy)).set 2 (Ptr.scalar cj)).getD i Ptr.null).deref mem := by
  rcases l with _ | ⟨a0, _ | ⟨a1, _ | ⟨a2, rest⟩⟩⟩ <;> interval_cases i <;> simp [Ptr.deref, h]

theorem jac_set_idem {R : Type} (tt cj : R) (yy : Nat) (l : List (Ptr R)) :
    ((((((l.set 0 (Ptr.scalar tt)).set 1 (Ptr.data yy)).set 2 (Ptr.scalar cj)).set 0
      (Ptr.scalar tt)).set 1 (Ptr.data yy)).set 2 (Ptr.scalar cj)) =
    (((l.set 0 (Ptr.scalar tt)).set 1 (Ptr.data yy)).set 2 (Ptr.scalar cj)) := by
  rcases l with _ | ⟨a0, _ | ⟨a1, _ | ⟨a2, rest⟩⟩⟩ <;> simp

theorem set_res_idem (l : List (Option Nat)) (b : Nat) :
    (l.set 0 (some b)).set 0 (some b) = l.set 0 (some b) := by
  cases l <;> simp

/-- Claim C9 (sparsity copy).  When the declared row-index and column-pointer
arrays fit the matrix, after `jacobian_casadi` the matrix's index arrays agree
with the declared arrays entry for entry; run on the matrix that the
setup-time copy of `solve_casadi` produced it leaves that matrix as it is; and
a second call with the same `(t, y, cj)` yields the same index arrays and the
same data array.  The evaluator is a function of `(t, y, cj)` with at most one
output, and `yy` is not the matrix's data array. -/
theorem jacobian_casadi_sparsity_copy {R : Type} (tt cj : R) (yy yp resvec : Nat)
    (JJ : SUNSparseMatrix) (ud : PybammFunctions R) (mem : Mem R)
    (hrow : ud.jac_times_cjmass_rowvals.length ≤ JJ.indexvals.length)
    (hcol : ud.jac_times_cjmass_colptrs.length ≤ JJ.indexptrs.length)
    (hin : ud.jac_times_cjmass.m_func.n_in ≤ 3)
    (hout : ∀ args, (ud.jac_times_cjmass.m_func.eval args).length ≤ 1)
    (hy : yy ≠ JJ.data) :
    (∀ i, i < ud.jac_times_cjmass_rowvals.length →
      (jacobian_casadi tt cj yy yp resvec JJ ud mem).2.1.indexvals[i]? =
        ud.jac_times_cjmass_rowvals[i]?) ∧
    (∀ i, i < ud.jac_times_cjmass_colptrs.length →
      (jacobian_casadi tt cj yy yp resvec JJ ud mem).2.1.indexptrs[i]? =
        ud.jac_times_cjmass_colptrs[i]?) ∧
    (jacobian_casadi tt cj yy yp resvec
        (solve_casadi_sparsity ud.jac_times_cjmass_rowvals ud.jac_times_cjmass_colptrs JJ)
        ud mem).2.1 =
      solve_casadi_sparsity ud.jac_times_cjmass_rowvals ud.jac_times_cjmass_colptrs JJ ∧
    (jacobian_casadi tt cj yy yp resvec (jacobian_casadi tt cj yy yp resvec JJ ud mem).2.1
        (jacobian_casadi tt cj yy yp resvec JJ ud mem).2.2.1
        (jacobian_casadi tt cj yy yp resvec JJ ud mem).2.2.2).2.1 =
      (jacobian_casadi tt cj yy yp resvec JJ ud mem).2.1 ∧
    (jacobian_casadi tt cj yy yp resvec (jacobian_casadi tt cj yy yp resvec JJ ud mem).2.1
        (jacobian_casadi tt cj yy yp resvec JJ ud mem).2.2.1
        (jacobian_casadi tt cj yy yp resvec JJ ud mem).2.2.2).2.2.2 JJ.data =
      (jacobian_casadi tt cj yy yp resvec JJ ud mem).2.2.2 JJ.data := by
  refine ⟨?_, ?_, ?_, ?_, ?_⟩
  · intro i hi
    exact copy_index_getElem? _ _ hrow i hi
  · intro i hi
    exact copy_index_getElem? _ _ hcol i hi
  · simp only [jacobian_casadi, solve_casadi_sparsity, copy_index_idem _ _ hrow,
      copy_index_idem _ _ hcol]
  · simp only [jacobian_casadi, copy_index_idem _ _ hrow, copy_index_idem _ _ hcol]
  · simp only [jacobian_casadi, CasadiFunction.call, CasadiFunction.set_arg,
      CasadiFunction.set_res, jac_set_idem, set_res_idem]
    set l := ud.jac_times_cjmass.m_arg with hl
    set F := ud.jac_times_cjmass.m_func with hF
    set A := List.map (fun i => ((((l.set 0 (Ptr.scalar tt)).set 1 (Ptr.data yy)).set 2
      (Ptr.scalar cj)).getD i Ptr.null).deref mem) (List.range F.n_in) with hA
    set mem1 := store_results mem (ud.jac_times_cjmass.m_res.set 0 (some JJ.data)) (F.eval A)
      with hmem1
    have hyy : mem1 yy = mem yy := by
      apply store_results_le_one _ _ _ (hout A)
      intro b hb
      rcases hres : ud.jac_times_cjmass.m_res with _ | ⟨p, ps⟩
      · rw [hres] at hb; simp at hb
      · rw [hres] at hb; simp at hb; rw [← hb]; exact hy
    have hA2 : List.map (fun i => ((((l.set 0 (Ptr.scalar tt)).set 1 (Ptr.data yy)).set 2
      (Ptr.scalar cj)).getD i Ptr.null).deref mem1) (List.range F.n_in) = A := by
      apply List.map_congr_left
      intro i hi
      exact jac_args_eq tt cj yy l mem mem1 hyy i (by simp at hi; omega)
    rw [hA2, store_results_set_zero _ _ _ (hout A), hmem1,
      store_results_set_zero _ _ _ (hout A)]
    by_cases hc : ud.jac_times_cjmass.m_res.length = 0 ∨ (F.eval A).length = 0
    · rw [if_pos hc, if_pos hc]
    · rw [if_neg hc, if_neg hc, overwrite_idem]

theorem forLoopE_succ {σ : Type} (n : Nat) (body : Nat → σ → Except Fault σ) (s : σ) :
    forLoopE (n + 1) body s = (forLoopE n body s >>= body n) := by
  simp [forLoopE, List.range_succ, List.foldlM_append]

theorem forLoopE_inv {σ : Type} (P : Nat → σ → Prop) (n : Nat)
    (body : Nat → σ → Except Fault σ) (s : σ) (h0 : P 0 s)
    (hstep : ∀ i s, i < n → P i s → ∃ s', body i s = Except.ok s' ∧ P (i + 1) s') :
    ∃ s', forLoopE n body s = Except.ok s' ∧ P n s' := by
  induction n with
  | zero => exact ⟨s, rfl, h0⟩
  | succ n ih =>
    obtain ⟨s1, h1, hP1⟩ := ih (fun i s hi hP => hstep i s (by omega) hP)
    obtain ⟨s2, h2, hP2⟩ := hstep n s1 (by omega) hP1
    refine ⟨s2, ?_, hP2⟩
    rw [forLoopE_succ, h1]
    exact h2

theorem rd_ok {R : Type} (flt : Nat → Fault) (xs : List R) (i : Nat) (v : R)
    (h : xs[i]? = some v) : rd flt xs i = Except.ok v := by
  simp [rd, h]

theorem read_t_ok {R : Type} (t : List R) (log : List Nat) (i : Nat) (v : R)
    (h : t[i]? = some v) : read_t t log i = Except.ok (v, log ++ [i]) := by
  simp [read_t, h]

theorem read_t_fault {R : Type} (t : List R) (log : List Nat) (i : Nat)
    (h : t.length ≤ i) : read_t t log i = Except.error (Fault.t_read i) := by
  simp [read_t, List.getElem?_eq_none h]

theorem wr_ok {R : Type} (flt : Nat → Fault) (xs : List R) (i : Nat) (v : R)
    (h : i < xs.length) : wr flt xs i v = Except.ok (xs.set i v) := by
  simp [wr, h]

theorem copy_block_ok {R : Type} (wflt rflt : Nat → Fault) (dst : List R) (base : Nat)
    (src : List R) (sbase cnt : Nat) (hd : base + cnt ≤ dst.length)
    (hs : sbase + cnt ≤ src.length) :
    ∃ d, copy_block wflt rflt dst base src sbase cnt = Except.ok d ∧ d.length = dst.length ∧
      ∀ i, d[i]? = if base ≤ i ∧ i < base + cnt then src[sbase + (i - base)]? else dst[i]? := by
  unfold copy_block
  refine forLoopE_inv (fun k d => d.length = dst.length ∧
    ∀ i, d[i]? = if base ≤ i ∧ i < base + k then src[sbase + (i - base)]? else dst[i]?)
    cnt _ dst ?_ ?_
  · refine ⟨rfl, ?_⟩
    intro i
    have : ¬ (base ≤ i ∧ i < base + 0) := by omega
    rw [if_neg this]
  · intro k d hk hP
    obtain ⟨hlen, hget⟩ := hP
    have hsk : sbase + k < src.length := by omega
    refine ⟨d.set (base + k) src[sbase + k], ?_, ?_, ?_⟩
    · rw [rd_ok rflt src (sbase + k) src[sbase + k] (List.getElem?_eq_getElem hsk)]
      exact wr_ok wflt d (base + k) _ (by omega)
    · simp [hlen]
    · intro i
      rw [List.getElem?_set]
      by_cases hi : base + k = i
      · subst hi
        have h1 : base + k < d.length := by omega
        have h2 : base ≤ base + k ∧ base + k < base + (k + 1) := by omega
        simp [h1, h2, List.getElem?_eq_getElem hsk]
      · rw [if_neg hi, hget i]
        by_cases h3 : base ≤ i ∧ i < base + k
        · have h4 : base ≤ i ∧ i < base + (k + 1) := by omega
          rw [if_pos h3, if_pos h4]
        · have h4 : ¬ (base ≤ i ∧ i < base + (k + 1)) := by omega
          rw [if_neg h3, if_neg h4]

theorem sens_index_bound (n ns np t_i j : Nat) (hti : t_i < n) (hj : j < np) :
    j * n * ns + t_i * ns + ns ≤ np * n * ns := by
  have e2 : (t_i + 1) * ns ≤ n * ns := Nat.mul_le_mul_right ns hti
  have e3 : (j + 1) * (n * ns) ≤ np * (n * ns) := Nat.mul_le_mul_right (n * ns) hj
  calc j * n * ns + t_i * ns + ns = j * (n * ns) + (t_i + 1) * ns := by ring
    _ ≤ j * (n * ns) + n * ns := by omega
    _ = (j + 1) * (n * ns) := by ring
    _ ≤ np * (n * ns) := e3
    _ = np * n * ns := by ring

theorem sens_copy_ok {R : Type} (ns np L : Nat) (base : Nat → Nat) (ySval yS_return : List R)
    (hb : ∀ j, j < np → base j + ns ≤ L) (h1 : ySval.length = np * ns)
    (h2 : yS_return.length = L) :
    ∃ d, forLoopE np (fun j yS_return =>
        copy_block Fault.yS_return_write Fault.ySval_read yS_return
          (base j) ySval (j * ns) ns) yS_return = Except.ok d ∧
      d.length = L := by
  refine forLoopE_inv (fun _ d => d.length = L) np _ yS_return ?_ ?_
  · exact h2
  · intro j d hj hd
    have e1 : (j + 1) * ns ≤ np * ns := Nat.mul_le_mul_right ns hj
    have e4 : base j + ns ≤ d.length := by rw [hd]; exact hb j hj
    have e5 : j * ns + ns ≤ ySval.length := by
      rw [h1]; calc j * ns + ns = (j + 1) * ns := by ring
        _ ≤ np * ns := e1
    obtain ⟨d', hd', hlen, _⟩ := copy_block_ok Fault.yS_return_write Fault.ySval_read d
      (base j) ySval (j * ns) ns e4 e5
    exact ⟨d', hd', hlen.trans hd⟩

theorem loop_body_oob {R : Type} (t : List R) (ns np : Nat) (S : IDA R) (st : DriverState R)
    (h : t.length ≤ st.t_i) :
    loop_body t ns np S st = Except.error (Fault.t_read st.t_i) := by
  simp [loop_body, read_t_fault t st.t_reads st.t_i h, bind, Except.bind]

theorem loop_body_failure {R : Type} (t : List R) (ns np : Nat) (S : IDA R) (st : DriverState R)
    (tn : R) (htn : t[st.t_i]? = some tn)
    (hfail : ¬ ((S.IDASolve (st.calls + 1) tn st.t_final).retval = IDA_TSTOP_RETURN ∨
      (S.IDASolve (st.calls + 1) tn st.t_final).retval = IDA_SUCCESS ∨
      (S.IDASolve (st.calls + 1) tn st.t_final).retval = IDA_ROOT_RETURN)) :
    loop_body t ns np S st = Except.ok (false,
      { st with retval := (S.IDASolve (st.calls + 1) tn st.t_final).retval,
                tret := (S.IDASolve (st.calls + 1) tn st.t_final).tret,
                yval := (List.range ns).map (S.IDASolve (st.calls + 1) tn st.t_final).yy,
                calls := st.calls + 1, t_reads := st.t_reads ++ [st.t_i] }) := by
  simp only [loop_body, read_t_ok t st.t_reads st.t_i tn htn, bind, Except.bind, if_neg hfail]
  rfl

theorem loop_body_record {R : Type} (t : List R) (ns np : Nat) (S : IDA R) (st : DriverState R)
    (tn : R) (htn : t[st.t_i]? = some tn) (hwf : st.wf t.length ns np)
    (hok : (S.IDASolve (st.calls + 1) tn st.t_final).retval = IDA_TSTOP_RETURN ∨
      (S.IDASolve (st.calls + 1) tn st.t_final).retval = IDA_SUCCESS ∨
      (S.IDASolve (st.calls + 1) tn st.t_final).retval = IDA_ROOT_RETURN) :
    ∃ st', loop_body t ns np S st = Except.ok
        (decide ((S.IDASolve (st.calls + 1) tn st.t_final).retval = IDA_SUCCESS ∨
          (S.IDASolve (st.calls + 1) tn st.t_final).retval = IDA_ROOT_RETURN), st') ∧
      st'.wf t.length ns np ∧ st'.t_i = st.t_i + 1 ∧ st'.calls = st.calls + 1 ∧
      st'.retval = (S.IDASolve (st.calls + 1) tn st.t_final).retval ∧
      st'.t_final = st.t_final ∧
      st'.t_return = st.t_return.set st.t_i (S.IDASolve (st.calls + 1) tn st.t_final).tret ∧
      st'.t_reads = st.t_reads ++ [st.t_i] ∧
      ∀ i, st'.y_return[i]? =
        if st.t_i * ns ≤ i ∧ i < st.t_i * ns + ns
        then some ((S.IDASolve (st.calls + 1) tn st.t_final).yy (i - st.t_i * ns))
        else st.y_return[i]? := by
  obtain ⟨w1, w2, w3, w4, w5⟩ := hwf
  have hlt : st.t_i < t.length := by
    by_contra hc
    rw [List.getElem?_eq_none (by omega)] at htn
    exact Option.noConfusion htn
  have e2 : (st.t_i + 1) * ns ≤ t.length * ns := Nat.mul_le_mul_right ns hlt
  have hy : st.t_i * ns + ns ≤ st.y_return.length := by
    rw [w2]; calc st.t_i * ns + ns = (st.t_i + 1) * ns := by ring
      _ ≤ t.length * ns := e2
  obtain ⟨yr, hyr, hyl, hyc⟩ := copy_block_ok Fault.y_return_write Fault.yval_read st.y_return
    (st.t_i * ns) ((List.range ns).map (S.IDASolve (st.calls + 1) tn st.t_final).yy) 0 ns hy
    (by simp)
  have hsl : (if 0 < np then flat_sens ns np (S.IDASolve (st.calls + 1) tn st.t_final).yS
      else st.ySval).length = np * ns := by
    split
    · simp [flat_sens]
    · exact w5
  obtain ⟨ysr, hysr, hysl⟩ := sens_copy_ok ns np (np * t.length * ns)
    (fun j => j * t.length * ns + st.t_i * ns) _ st.yS_return
    (fun j hj => sens_index_bound t.length ns np st.t_i j hlt hj) hsl w3
  refine ⟨{ st with retval := (S.IDASolve (st.calls + 1) tn st.t_final).retval,
                    tret := (S.IDASolve (st.calls + 1) tn st.t_final).tret,
                    yval := (List.range ns).map (S.IDASolve (st.calls + 1) tn st.t_final).yy,
                    calls := st.calls + 1, t_reads := st.t_reads ++ [st.t_i],
                    ySval := if 0 < np
                      then flat_sens ns np (S.IDASolve (st.calls + 1) tn st.t_final).yS
                      else st.ySval,
                    t_return := st.t_return.set st.t_i
                      (S.IDASolve (st.calls + 1) tn st.t_final).tret,
                    y_return := yr, yS_return := ysr, t_i := st.t_i + 1 }, ?_, ?_⟩
  · simp only [loop_body, read_t_ok t st.t_reads st.t_i tn htn, bind, Except.bind, if_pos hok,
      wr_ok Fault.t_return_write st.t_return st.t_i _ (show st.t_i < st.t_return.length by omega),
      hyr, hysr, pure, Except.pure]
    by_cases hbrk : (S.IDASolve (st.calls + 1) tn st.t_final).retval = IDA_SUCCESS ∨
        (S.IDASolve (st.calls + 1) tn st.t_final).retval = IDA_ROOT_RETURN
    · rw [if_pos hbrk]; simp only [hbrk, decide_True]
    · rw [if_neg hbrk]; simp only [hbrk, decide_False]
  · refine ⟨⟨by simp [w1], hyl.trans w2, hysl, by simp, hsl⟩, rfl, rfl, rfl, rfl, rfl, rfl, ?_⟩
    intro i
    show yr[i]? = _
    rw [hyc i]
    split
    · rename_i h
      simp [List.getElem?_map, List.getElem?_range (show i - st.t_i * ns < ns by omega)]
    · rfl

theorem solve_casadi_setup_ok {R : Type} [Zero R] (t y0 : List R) (np : Nat) (S : IDA R)
    (h : 2 ≤ t.length) :
    ∃ st, solve_casadi_setup t y0 np S = Except.ok st ∧ st.wf t.length y0.length np ∧
      st.t_i = 1 ∧ st.calls = 0 ∧ st.t_final = t.getD (t.length - 1) 0 ∧
      st.t_reads = [0, t.length - 1, 0, 1] ∧
      st.t_return = (List.replicate t.length 0).set 0 (t.getD 0 0) := by
  have r0 : t[0]? = some (t.getD 0 0) := by
    rw [List.getD_eq_getElem?_getD, List.getElem?_eq_getElem (show 0 < t.length by omega)]; rfl
  have r1 : t[1]? = some (t.getD 1 0) := by
    rw [List.getD_eq_getElem?_getD, List.getElem?_eq_getElem (show 1 < t.length by omega)]; rfl
  have rl : t[t.length - 1]? = some (t.getD (t.length - 1) 0) := by
    rw [List.getD_eq_getElem?_getD,
      List.getElem?_eq_getElem (show t.length - 1 < t.length by omega)]; rfl
  have hy : 0 + y0.length ≤ (List.replicate (t.length * y0.length) (0 : R)).length := by
    simp only [List.length_replicate, Nat.zero_add]
    calc y0.length = 1 * y0.length := by ring
      _ ≤ t.length * y0.length := Nat.mul_le_mul_right _ (by omega)
  obtain ⟨yr, hyr, hyl, _⟩ := copy_block_ok Fault.y_return_write Fault.yval_read
    (List.replicate (t.length * y0.length) (0 : R)) 0 y0 0 y0.length hy (by simp)
  obtain ⟨ysr, hysr, hysl⟩ := sens_copy_ok y0.length np (np * t.length * y0.length)
    (fun j => j * t.length * y0.length) (List.replicate (np * y0.length) (0 : R))
    (List.replicate (np * t.length * y0.length) (0 : R))
    (fun j hj => by
      have := sens_index_bound t.length y0.length np 0 j (by omega) hj
      simpa using this) (by simp) (by simp)
  refine ⟨{ t_i := 1, retval := 0, tret := t.getD 0 0, t_final := t.getD (t.length - 1) 0,
            yval := y0, ySval := List.replicate (np * y0.length) 0,
            t_return := (List.replicate t.length 0).set 0 (t.getD 0 0), y_return := yr,
            yS_return := ysr, calls := 0, t_reads := [0, t.length - 1, 0, 1] }, ?_, ?_⟩
  · simp only [solve_casadi_setup, read_t_ok t _ _ _ r0, read_t_ok t _ _ _ r1,
      read_t_ok t _ _ _ rl, bind, Except.bind, pure, Except.pure, List.nil_append,
      List.cons_append, List.singleton_append,
      wr_ok Fault.t_return_write (List.replicate t.length (0 : R)) 0 _
        (show 0 < (List.replicate t.length (0 : R)).length by simp; omega), hyr, hysr]
  · refine ⟨⟨by simp, ?_, hysl, rfl, by simp⟩, rfl, rfl, rfl, rfl, rfl⟩
    show yr.length = _
    rw [hyl]; simp

theorem getElem?_getD_zero {R : Type} [Zero R] (t : List R) (i : Nat) (h : i < t.length) :
    t[i]? = some (t.getD i 0) := by
  rw [List.getD_eq_getElem?_getD, List.getElem?_eq_getElem h]; rfl

theorem step_loop_succ {R : Type} (t : List R) (ns np : Nat) (S : IDA R) (fuel : Nat)
    (st : DriverState R) :
    step_loop t ns np S (fuel + 1) st =
      match loop_body t ns np S st with
      | Except.error f => Outcome.fault f
      | Except.ok (true, st') => Outcome.finished st'
      | Except.ok (false, st') => step_loop t ns np S fuel st' := rfl

/-- Witness for C1: the decay model with `y = [2]`, `yp = [3]`. -/
theorem residual_casadi_spec_witness :
    (residual_casadi (0 : Int) 1 2 3 decay_functions decay_mem).1 = 0 ∧
    ((residual_casadi (0 : Int) 1 2 3 decay_functions decay_mem).2.2 3)[0]? = some (-2 - 3) :=
  ⟨(residual_casadi_spec (fun _ y => y.map fun x => -x) (fun v => v) 0 1 2 3 decay_functions
      decay_mem rfl (fun _ _ => rfl) rfl (fun _ => rfl) (by decide) (by decide) (by decide)
      (by decide) rfl rfl (by decide) (by decide)).1,
   (residual_casadi_spec (fun _ y => y.map fun x => -x) (fun v => v) 0 1 2 3 decay_functions
      decay_mem rfl (fun _ _ => rfl) rfl (fun _ => rfl) (by decide) (by decide) (by decide)
      (by decide) rfl rfl (by decide) (by decide)).2 0 (by decide)⟩

/-- Whatever the evaluators (with at most one output each) and the inputs,
`jtimes_casadi` does not change the vector `Jv`, as long as `Jv` is not the
buffer of `rr` or of `tmp1`. -/
theorem jtimes_casadi_leaves_Jv {R : Type} [CommRing R] (tt cj : R)
    (yy yp rr v Jv tmp1 tmp2 : Nat) (ud : PybammFunctions R) (mem : Mem R)
    (hj : ∀ args, (ud.jac_action.m_func.eval args).length ≤ 1)
    (hm : ∀ args, (ud.mass_action.m_func.eval args).length ≤ 1)
    (h1 : Jv ≠ rr) (h2 : Jv ≠ tmp1) :
    (jtimes_casadi tt yy yp rr v Jv cj ud tmp1 tmp2 mem).2.2 Jv = mem Jv := by
  simp only [jtimes_casadi, CasadiFunction.call, CasadiFunction.set_arg, CasadiFunction.set_res]
  rw [mem_store_other _ _ _ _ h1]
  rw [store_results_le_one _ _ _ (hm _) Jv (by
    intro b hb
    rcases hres : ud.mass_action.m_res with _ | ⟨p, ps⟩
    · rw [hres] at hb; simp at hb
    · rw [hres] at hb; simp at hb; rw [← hb]; exact h2)]
  rw [store_results_le_one _ _ _ (hj _) Jv (by
    intro b hb
    rcases hres : ud.jac_action.m_res with _ | ⟨p, ps⟩
    · rw [hres] at hb; simp at hb
    · rw [hres] at hb; simp at hb; rw [← hb]; exact h1)]

/-- Claim C2 at a failing input (decay model, `v = [1]`, `cj = 2`, `Jv = [0]`):
`jtimes_casadi` leaves `Jv` (buffer 5) as it was, `[0]`, and puts the value
`jac_action(t, y, cj, v) - cj * mass_action(v) = [-3]` into `rr` (buffer 3)
instead. -/
theorem jtimes_casadi_writes_rr_not_Jv :
    (jtimes_casadi (0 : Int) 1 2 3 4 5 2 decay_functions 6 7 decay_mem).2.2 5 = decay_mem 5 ∧
    (jtimes_casadi (0 : Int) 1 2 3 4 5 2 decay_functions 6 7 decay_mem).2.2 5 = [0] ∧
    (jtimes_casadi (0 : Int) 1 2 3 4 5 2 decay_functions 6 7 decay_mem).2.2 3 = [-3] ∧
    List.zipWith (fun a b => a - 2 * b)
      ((decay_jac_action.eval [some [0], some (decay_mem 1), some [2], some (decay_mem 4)]).headD [])
      ((decay_mass.eval [some (decay_mem 4)]).headD []) = [-3] := by
  decide

theorem head?_set_one {α : Type} (l : List α) (x : α) : (l.set 1 x).head? = l.head? := by
  rcases l with _ | ⟨a, _ | ⟨b, l⟩⟩ <;> rfl

/-- One pass of the loop of `sensitivities_casadi` never uses what the two
evaluators compute: when each has at most one output and its result slot 0
points to none of `tmp1`, `tmp2`, `resvalS[i]`, the pass adds the old content
of `tmp1` to `resvalS[i]` and subtracts the old content of `tmp2`. -/
theorem sensitivities_body_ignores_outputs {R : Type} [CommRing R] (t : R) (yy : Nat)
    (yS ypS resvalS : Nat → Nat) (tmp1 tmp2 i : Nat) (ud : PybammFunctions R) (mem : Mem R)
    (hj : ∀ args, (ud.jac_action.m_func.eval args).length ≤ 1)
    (hm : ∀ args, (ud.mass_action.m_func.eval args).length ≤ 1)
    (hjr : ∀ b, ud.jac_action.m_res.head? = some (some b) →
      tmp1 ≠ b ∧ tmp2 ≠ b ∧ resvalS i ≠ b)
    (hmr : ∀ b, ud.mass_action.m_res.head? = some (some b) →
      tmp1 ≠ b ∧ tmp2 ≠ b ∧ resvalS i ≠ b)
    (hr : tmp2 ≠ resvalS i) :
    (sensitivities_body t yy yS ypS resvalS tmp1 tmp2 i (ud, mem)).2 (resvalS i) =
      casadi_axpy ud.number_of_states (-1) (mem tmp2)
        (casadi_axpy ud.number_of_states 1 (mem tmp1) (mem (resvalS i))) := by
  simp only [sensitivities_body, CasadiFunction.call, CasadiFunction.set_arg,
    CasadiFunction.set_res]
  have hjr' : ∀ b, (ud.jac_action.m_res.set 1 (some tmp1)).head? = some (some b) →
      tmp1 ≠ b ∧ tmp2 ≠ b ∧ resvalS i ≠ b := by
    intro b hb; rw [head?_set_one] at hb; exact hjr b hb
  have hmr' : ∀ b, (ud.mass_action.m_res.set 1 (some tmp2)).head? = some (some b) →
      tmp1 ≠ b ∧ tmp2 ≠ b ∧ resvalS i ≠ b := by
    intro b hb; rw [head?_set_one] at hb; exact hmr b hb
  rw [mem_store_same, mem_store_same, mem_store_other _ _ _ _ hr]
  rw [store_results_le_one _ _ _ (hm _) tmp2 (fun b hb => (hmr' b hb).2.1),
    store_results_le_one _ _ _ (hm _) tmp1 (fun b hb => (hmr' b hb).1),
    store_results_le_one _ _ _ (hm _) (resvalS i) (fun b hb => (hmr' b hb).2.2),
    store_results_le_one _ _ _ (hj _) tmp2 (fun b hb => (hjr' b hb).2.1),
    store_results_le_one _ _ _ (hj _) tmp1 (fun b hb => (hjr' b hb).1),
    store_results_le_one _ _ _ (hj _) (resvalS i) (fun b hb => (hjr' b hb).2.2)]

/-- Claim C3 at a failing input (decay model, `y = [2]`, `s_0 = [4]`,
`sp_0 = [6]`, scratch vectors `[0]`).  With freshly constructed handles
`sensitivities_casadi` leaves `resvalS[0] = [-2]`, the bare `dF/dp`; with the
handles as `jtimes_casadi` and `residual_casadi` leave them it gives `[-1]`,
the stale content of `tmp1` added.  The claimed value
`dF/dp + jac_action(s_0) - mass_action(sp_0)` is `[-12]`. -/
theorem sensitivities_casadi_ignores_evaluators :
    (sensitivities_casadi 1 (0 : Int) 1 2 3 (fun _ => 8) (fun _ => 9) (fun _ => 10)
      decay_functions 6 7 7 decay_mem).2.2 10 = [-2] ∧
    (sensitivities_casadi 1 (0 : Int) 1 2 3 (fun _ => 8) (fun _ => 9) (fun _ => 10)
      (residual_casadi (0 : Int) 1 2 3
        (jtimes_casadi (0 : Int) 1 2 3 4 5 2 decay_functions 6 7 decay_mem).2.1
        (jtimes_casadi (0 : Int) 1 2 3 4 5 2 decay_functions 6 7 decay_mem).2.2).2.1 6 7 7
      (residual_casadi (0 : Int) 1 2 3
        (jtimes_casadi (0 : Int) 1 2 3 4 5 2 decay_functions 6 7 decay_mem).2.1
        (jtimes_casadi (0 : Int) 1 2 3 4 5 2 decay_functions 6 7 decay_mem).2.2).2.2).2.2 10
      = [-1] ∧
    List.zipWith (fun a b => a - b)
      (List.zipWith (fun a b => a + b)
        ((decay_sens.eval [some [0], some (decay_mem 1)]).headD [])
        ((decay_jac_action.eval [some [0], some (decay_mem 1), some [0], some (decay_mem 8)]).headD []))
      ((decay_mass.eval [some (decay_mem 9)]).headD []) = [-12] := by
  decide

theorem step_loop_failure_spins {R : Type} [Zero R] (t : List R) (ns np : Nat) (S : IDA R)
    (hfail : ∀ c tn tf, ¬ ((S.IDASolve c tn tf).retval = IDA_TSTOP_RETURN ∨
      (S.IDASolve c tn tf).retval = IDA_SUCCESS ∨ (S.IDASolve c tn tf).retval = IDA_ROOT_RETURN)) :
    ∀ (fuel : Nat) (st : DriverState R), st.t_i < t.length →
      ∃ st', step_loop t ns np S fuel st = Outcome.running st' ∧ st'.calls = st.calls + fuel ∧
        st'.t_i = st.t_i ∧ st'.t_return = st.t_return ∧ st'.y_return = st.y_return := by
  intro fuel
  induction fuel with
  | zero => intro st _; exact ⟨st, rfl, rfl, rfl, rfl, rfl⟩
  | succ fuel ih =>
    intro st hlt
    have htn := getElem?_getD_zero t st.t_i hlt
    obtain ⟨st', h1, h2, h3, h4, h5⟩ := ih
      { st with retval := (S.IDASolve (st.calls + 1) (t.getD st.t_i 0) st.t_final).retval,
                tret := (S.IDASolve (st.calls + 1) (t.getD st.t_i 0) st.t_final).tret,
                yval := (List.range ns).map
                  (S.IDASolve (st.calls + 1) (t.getD st.t_i 0) st.t_final).yy,
                calls := st.calls + 1, t_reads := st.t_reads ++ [st.t_i] } hlt
    refine ⟨st', ?_, ?_, h3, h4, h5⟩
    · rw [step_loop_succ, loop_body_failure t ns np S st _ htn (hfail _ _ _)]
      exact h1
    · rw [h2]; simp only; omega

/-- Claim C4 at two failing inputs (three output times, one state).  When every
solver step returns the failure status -4 the loop never ends: whatever the
iteration budget, `solve_casadi` has not returned and has called the solver
once per iteration, still at `t_i = 1`.  When only the first step fails and
the second succeeds, the driver returns the status success and the failure
code is lost. -/
theorem solve_casadi_failure_not_fatal :
    (∀ fuel, solve_casadi fuel [0, 1, 2] [1] 0 (scripted_solver 0 fun _ => -4) = none ∧
      ∃ st, solve_casadi_run fuel [0, 1, 2] [1] 0 (scripted_solver 0 fun _ => -4) =
          Outcome.running st ∧ st.calls = fuel ∧ st.t_i = 1) ∧
    (solve_casadi 2 [0, 1, 2] [1] 0 (scripted_solver 0 fun c => if c = 1 then -4 else 0)).map
        (fun sol => (sol.flag, sol.t, sol.y)) = some (IDA_SUCCESS, [0, 1], [1, 2]) := by
  refine ⟨?_, by decide⟩
  intro fuel
  obtain ⟨st0, hs, _, hti, hc, _⟩ :=
    solve_casadi_setup_ok [0, 1, 2] [1] 0 (scripted_solver 0 fun _ => -4) (by decide)
  obtain ⟨st, h1, h2, h3, _⟩ := step_loop_failure_spins [0, 1, 2] 1 0
    (scripted_solver 0 fun _ => -4)
    (fun c tn tf => by
      show ¬ ((-4 : Int) = IDA_TSTOP_RETURN ∨ (-4 : Int) = IDA_SUCCESS ∨
        (-4 : Int) = IDA_ROOT_RETURN)
      decide) fuel st0 (by rw [hti]; decide)
  have hrun : solve_casadi_run fuel [0, 1, 2] [1] 0 (scripted_solver 0 fun _ => -4) =
      Outcome.running st := by
    simp only [solve_casadi_run, hs]
    exact h1
  refine ⟨?_, st, hrun, by omega, by omega⟩
  simp only [solve_casadi, hrun]

/-- Claim C6 at a failing input (three output times, one state, two
parameters, root found at the first step, where `s_1 = [7]`): the returned
array of shape `(2, 2, 1)` is `[0, 5, 0, 0]`, so its entry `[1][1][0]` is 0 and
not 7, the value of `s_1` at the second recorded point. -/
theorem solve_casadi_sensitivity_stride :
    (solve_casadi 1 [0, 1, 2] [1] 2 (scripted_solver 0 fun _ => IDA_ROOT_RETURN)).map
        (fun sol => (sol.flag, sol.t, sol.yS_shape, sol.yS, sol.yS_entry 1 1 0)) =
      some (IDA_ROOT_RETURN, [0, 1], (2, 2, 1), [0, 5, 0, 0], some 0) ∧
    ((scripted_solver 0 fun _ => IDA_ROOT_RETURN).IDASolve 1 1 2).yS 1 0 = 7 :=
  ⟨rfl, rfl⟩

/-- Claim C10, amended.  For `n ≥ 2` output times, the indices at which the
output-time array is read up to and including the first iteration of the
stepping loop are `0, n - 1, 0, 1, 1`, and each of them is less than `n`. -/
theorem solve_casadi_first_reads {R : Type} [Zero R] (t y0 : List R) (np : Nat) (S : IDA R)
    (hn : 2 ≤ t.length) :
    ∃ st b st', solve_casadi_setup t y0 np S = Except.ok st ∧
      loop_body t y0.length np S st = Except.ok (b, st') ∧
      st'.t_reads = [0, t.length - 1, 0, 1, 1] ∧ ∀ i ∈ st'.t_reads, i < t.length := by
  obtain ⟨st0, hs, hwf, hti, _, htf, hreads, _⟩ := solve_casadi_setup_ok t y0 np S hn
  have htn := getElem?_getD_zero t st0.t_i (by omega)
  have hall : ∀ i ∈ [0, t.length - 1, 0, 1, 1], i < t.length := by
    intro i hi
    simp only [List.mem_cons, List.mem_singleton, List.not_mem_nil, or_false] at hi
    omega
  by_cases hok : (S.IDASolve (st0.calls + 1) (t.getD st0.t_i 0) st0.t_final).retval =
      IDA_TSTOP_RETURN ∨
    (S.IDASolve (st0.calls + 1) (t.getD st0.t_i 0) st0.t_final).retval = IDA_SUCCESS ∨
    (S.IDASolve (st0.calls + 1) (t.getD st0.t_i 0) st0.t_final).retval = IDA_ROOT_RETURN
  · obtain ⟨st', hb, _, _, _, _, _, _, h7, _⟩ := loop_body_record t y0.length np S st0 _ htn hwf hok
    have hr : st'.t_reads = [0, t.length - 1, 0, 1, 1] := by
      rw [h7, hreads, hti]; rfl
    exact ⟨st0, _, st', hs, hb, hr, by rw [hr]; exact hall⟩
  · have hb := loop_body_failure t y0.length np S st0 _ htn hok
    refine ⟨st0, _, _, hs, hb, ?_, ?_⟩
    · simp only [hreads, hti]; rfl
    · simp only [hreads, hti]; exact hall

/-- Witness for the amended C10: three output times. -/
theorem solve_casadi_first_reads_witness :
    ∃ st b st', solve_casadi_setup [0, 1, 2] [1] 1 stopping_solver = Except.ok st ∧
      loop_body [0, 1, 2] 1 1 stopping_solver st = Except.ok (b, st') ∧
      st'.t_reads = [0, 2, 0, 1, 1] ∧ ∀ i ∈ st'.t_reads, i < 3 :=
  solve_casadi_first_reads [0, 1, 2] [1] 1 stopping_solver (by decide)

/-- Claim C10 fails as stated: with a single output time (`n = 1`) the setup
reads index 1 for `IDACalcIC`, which is not less than `n`. -/
theorem solve_casadi_single_time_reads_past_end :
    [(5 : Int)].length = 1 ∧
    solve_casadi_setup [5] [1] 0 (scripted_solver 0 fun _ => IDA_SUCCESS) =
      Except.error (Fault.t_read 1) := by
  refine ⟨rfl, rfl⟩

/-- Witness for C9: the decay model and its one-entry matrix. -/
theorem jacobian_casadi_sparsity_copy_witness :
    (jacobian_casadi (0 : Int) 2 1 2 3 decay_matrix decay_functions decay_mem).2.1.indexvals[0]? =
      some 0 ∧
    (jacobian_casadi (0 : Int) 2 1 2 3 decay_matrix decay_functions decay_mem).2.1.indexptrs[1]? =
      some 1 ∧
    (jacobian_casadi (0 : Int) 2 1 2 3
        (jacobian_casadi (0 : Int) 2 1 2 3 decay_matrix decay_functions decay_mem).2.1
        (jacobian_casadi (0 : Int) 2 1 2 3 decay_matrix decay_functions decay_mem).2.2.1
        (jacobian_casadi (0 : Int) 2 1 2 3 decay_matrix decay_functions decay_mem).2.2.2).2.2.2 11 =
      (jacobian_casadi (0 : Int) 2 1 2 3 decay_matrix decay_functions decay_mem).2.2.2 11 := by
  have h := jacobian_casadi_sparsity_copy (0 : Int) 2 1 2 3 decay_matrix decay_functions
    decay_mem (by decide) (by decide) (by decide)
    (fun _ => by simp [decay_functions, CasadiFunction.new, decay_jac])
    (by decide)
  exact ⟨h.1 0 (by decide), h.2.1 1 (by decide), h.2.2.2.2⟩

end IdakluCasadi
